import Mathlib

/-!
Verification of `scripts/fetch_events.py` (marathon event scraper).

The Python source is shallowly embedded: pure functions become Lean
functions on `String` / `List Char`; the HTML/HTTP layer is modelled by
the data an extractor sees after parsing (a list of item nodes, each
holding the optional results of the per-field `select_one` calls); the
JSON file layer is modelled by a JSON value tree (`json.dump`/`json.load`
of the standard library are assumed to round-trip text faithfully, which
is outside this repository); exceptions become `Option`/`Except`.
-/

namespace Marathon

/-! ### Character and whitespace utilities

Python `str.strip()` and the regex class `\s` both recognise the Unicode
whitespace set used by `str.isspace`; `isPySpace` lists that set. -/

def isPySpace (c : Char) : Bool :=
  c == ' ' || c == '\t' || c == '\n' || c == '\r' || c == '\x0b' || c == '\x0c' ||
  (0x1c ≤ c.toNat && c.toNat ≤ 0x1f) || c.toNat == 0x85 || c.toNat == 0xa0 ||
  c.toNat == 0x1680 || (0x2000 ≤ c.toNat && c.toNat ≤ 0x200a) ||
  c.toNat == 0x2028 || c.toNat == 0x2029 || c.toNat == 0x202f ||
  c.toNat == 0x205f || c.toNat == 0x3000

/-- Python `value.strip()`: drop leading and trailing whitespace. -/
def stripChars (l : List Char) : List Char :=
  ((l.dropWhile isPySpace).reverse.dropWhile isPySpace).reverse

def pyStrip (s : String) : String :=
  String.mk (stripChars s.toList)

/-- Python `re.sub(r"\s+", " ", value)`: each maximal whitespace run
becomes a single space.  The boolean records whether the previous
character was inside a whitespace run. -/
def collapseAux : Bool → List Char → List Char
  | _, [] => []
  | prevSpace, c :: rest =>
    if isPySpace c then
      if prevSpace then collapseAux true rest
      else ' ' :: collapseAux true rest
    else c :: collapseAux false rest

def collapseWs (l : List Char) : List Char :=
  collapseAux false l

/-- Python `value.replace("年", "-").replace("月", "-").replace("日", "")`.
All three patterns are single characters and the replacement `-` is never
itself replaced, so the three sequential passes equal one pass. -/
def replaceGlyphs (l : List Char) : List Char :=
  l.filterMap fun c =>
    if c == '年' || c == '月' then some '-'
    else if c == '日' then none
    else some c

/-- The `value` after the three cleaning lines at the top of
`normalize_date`. -/
def cleanValue (s : String) : String :=
  String.mk (replaceGlyphs (collapseWs (stripChars s.toList)))

def digit (c : Char) : Bool := '0' ≤ c && c ≤ '9'

def dval (c : Char) : Nat := c.toNat - 48

/-! ### `datetime.strptime` for the three patterns in `DATE_PATTERNS`

CPython's `_strptime` compiles `%Y` to four digits, `%m` to the regex
alternation `1[0-2]|0[1-9]|[1-9]`, `%d` to `3[01]|[12]\d|0[1-9]|[1-9]`,
escapes the literal separator, requires the input to be consumed in full
("unconverted data remains" otherwise), and finally the `datetime`
constructor checks year ≥ 1 and the day against the month length. -/

/-- `%d` followed by end of input.  A one-character alternative that would
leave trailing characters makes `strptime` raise ("unconverted data
remains"), so only the exact-length cases succeed. -/
def matchDay : List Char → Option Nat
  | [d1, d2] =>
    if d1 == '3' && (d2 == '0' || d2 == '1') then some (30 + dval d2)
    else if (d1 == '1' || d1 == '2') && digit d2 then some (10 * dval d1 + dval d2)
    else if d1 == '0' && ('1' ≤ d2 && d2 ≤ '9') then some (dval d2)
    else none
  | [d1] => if '1' ≤ d1 && d1 ≤ '9' then some (dval d1) else none
  | _ => none

/-- `%m`, then the literal separator, then `%d`, then end of input.  The
three month alternatives are tried in regex order; a failing continuation
falls through to the next alternative exactly as the regex backtracks. -/
def parseMD (sep : Char) (l : List Char) : Option (Nat × Nat) :=
  (match l with
   | '1' :: d2 :: s :: rest =>
     if (d2 == '0' || d2 == '1' || d2 == '2') && s == sep then
       (matchDay rest).map fun d => (10 + dval d2, d)
     else none
   | _ => none) <|>
  (match l with
   | '0' :: d2 :: s :: rest =>
     if ('1' ≤ d2 && d2 ≤ '9') && s == sep then
       (matchDay rest).map fun d => (dval d2, d)
     else none
   | _ => none) <|>
  (match l with
   | d1 :: s :: rest =>
     if ('1' ≤ d1 && d1 ≤ '9') && s == sep then
       (matchDay rest).map fun d => (dval d1, d)
     else none
   | _ => none)

/-- The whole pattern `%Y<sep>%m<sep>%d` against the full string. -/
def parseStrict (sep : Char) (l : List Char) : Option (Nat × Nat × Nat) :=
  match l with
  | y1 :: y2 :: y3 :: y4 :: s :: rest =>
    if digit y1 && digit y2 && digit y3 && digit y4 && s == sep then
      (parseMD sep rest).map fun md =>
        (1000 * dval y1 + 100 * dval y2 + 10 * dval y3 + dval y4, md.1, md.2)
    else none
  | _ => none

def isLeap (y : Nat) : Bool := y % 4 == 0 && (y % 100 != 0 || y % 400 == 0)

def daysInMonth (y m : Nat) : Nat :=
  if m == 2 then (if isLeap y then 29 else 28)
  else if m == 4 || m == 6 || m == 9 || m == 11 then 30
  else 31

/-- `datetime.strptime(value, pattern)`: regex match plus the `datetime`
constructor's range checks (the month alternation already bounds the
month to 1..12 and the day to 1..31). -/
def strptimeDate (sep : Char) (l : List Char) : Option (Nat × Nat × Nat) :=
  (parseStrict sep l).bind fun ymd =>
    if 1 ≤ ymd.1 && ymd.2.2 ≤ daysInMonth ymd.1 ymd.2.1 then some ymd else none

/-- Zero-pad to two digits, as `%m`/`%d` in `strftime` and `:02d` in the
f-string do. -/
def pad2 (n : Nat) : String :=
  if n < 10 then "0" ++ toString n else toString n

/-- `.strftime("%Y-%m-%d")` (glibc renders `%Y` without zero padding). -/
def renderDate (y m d : Nat) : String :=
  toString y ++ "-" ++ pad2 m ++ "-" ++ pad2 d

/-- The `for pattern in DATE_PATTERNS` loop: the first pattern that
parses without error wins. -/
def tryPatterns (l : List Char) : Option String :=
  match strptimeDate '-' l with
  | some ymd => some (renderDate ymd.1 ymd.2.1 ymd.2.2)
  | none =>
    match strptimeDate '/' l with
    | some ymd => some (renderDate ymd.1 ymd.2.1 ymd.2.2)
    | none =>
      match strptimeDate '.' l with
      | some ymd => some (renderDate ymd.1 ymd.2.1 ymd.2.2)
      | none => none

def isSepChar (c : Char) : Bool := c == '-' || c == '/' || c == '.'

/-- `\d{1,2}` at the end of the fallback regex: greedy, nothing after it,
so two digits when two are available, else one. -/
def fbDay : List Char → Option Nat
  | d1 :: d2 :: _ =>
    if digit d1 && digit d2 then some (10 * dval d1 + dval d2)
    else if digit d1 then some (dval d1)
    else none
  | [d1] => if digit d1 then some (dval d1) else none
  | [] => none

/-- The month group `\d` repeated once or twice, then a separator class
(hyphen, slash or dot), then the day group: greedy month with
backtracking to one digit when the separator after two digits fails. -/
def fbMD (l : List Char) : Option (Nat × Nat) :=
  (match l with
   | m1 :: m2 :: s :: rest =>
     if digit m1 && digit m2 && isSepChar s then
       (fbDay rest).map fun d => (10 * dval m1 + dval m2, d)
     else none
   | _ => none) <|>
  (match l with
   | m1 :: s :: rest =>
     if digit m1 && isSepChar s then (fbDay rest).map fun d => (dval m1, d)
     else none
   | _ => none)

/-- One attempt of the fallback regex (four digits, separator class, one
or two digits, separator class, one or two digits) anchored at the head
of `l`.  The year group is kept as its four captured characters, since
the f-string interpolates the captured string verbatim. -/
def regexMatchAt (l : List Char) : Option (String × Nat × Nat) :=
  match l with
  | y1 :: y2 :: y3 :: y4 :: s :: rest =>
    if digit y1 && digit y2 && digit y3 && digit y4 && isSepChar s then
      (fbMD rest).map fun md => (String.mk [y1, y2, y3, y4], md.1, md.2)
    else none
  | _ => none

/-- `re.search`: leftmost starting position that matches wins. -/
def regexSearchDate : List Char → Option (String × Nat × Nat)
  | [] => none
  | c :: rest =>
    match regexMatchAt (c :: rest) with
    | some r => some r
    | none => regexSearchDate rest

/-- `normalize_date` from `scripts/fetch_events.py`. -/
def normalize_date (value : String) : String :=
  let cleaned := cleanValue value
  match tryPatterns cleaned.toList with
  | some out => out
  | none =>
    match regexSearchDate cleaned.toList with
    | some ymd => ymd.1 ++ "-" ++ pad2 ymd.2.1 ++ "-" ++ pad2 ymd.2.2
    | none => cleaned

/-! ### `guess_open_status` -/

/-- `needle` occurs at the head of `hay`. -/
def matchesAt : List Char → List Char → Bool
  | [], _ => true
  | _ :: _, [] => false
  | a :: as, b :: bs => a == b && matchesAt as bs

/-- Python `needle in hay` for strings: substring containment. -/
def containsSub (needle : List Char) : List Char → Bool
  | [] => matchesAt needle []
  | c :: rest => matchesAt needle (c :: rest) || containsSub needle rest

/-- The keyword tuple from `guess_open_status`. -/
def openKeywords : List String := ["報名中", "開放", "可報名", "立即報名"]

/-- `guess_open_status` from `scripts/fetch_events.py`. -/
def guess_open_status (text : String) : Bool :=
  let t := stripChars text.toList
  openKeywords.any fun keyword => containsSub keyword.toList t

/-! ### The `Event` dataclass and `dedupe_events` -/

structure Event where
  name : String
  location : String
  race_date : String
  registration_deadline : String
  registration_open : Bool
  website : String
  source : String
deriving DecidableEq, Repr

abbrev EventKey := String × String × String

/-- `(event.name, event.race_date, event.location)` — the dedupe key. -/
def eventKey (e : Event) : EventKey := (e.name, e.race_date, e.location)

/-- The loop of `dedupe_events`; the Python `set` of seen keys is
modelled by the list of keys inserted so far (only membership is used). -/
def dedupeAux (seen : List EventKey) : List Event → List Event
  | [] => []
  | e :: rest =>
    if eventKey e ∈ seen then dedupeAux seen rest
    else e :: dedupeAux (eventKey e :: seen) rest

/-- `dedupe_events` from `scripts/fetch_events.py`. -/
def dedupe_events (events : List Event) : List Event :=
  dedupeAux [] events

/-! ### `extract_generic` per-item logic

The HTTP fetch and HTML parse are outside the embedding; an extractor is
modelled from the point where `soup.select(selectors["item"])` has
produced a list of item nodes.  `ItemNode` records the result of each
`item.select_one(...)` call; `HtmlElem` carries the text content and the
optional `href` attribute of one selected element. -/

structure HtmlElem where
  text : String
  href : Option String
deriving DecidableEq, Repr

structure ItemNode where
  name_el : Option HtmlElem
  date_el : Option HtmlElem
  location_el : Option HtmlElem
  deadline_el : Option HtmlElem
  status_el : Option HtmlElem
  link_el : Option HtmlElem
deriving DecidableEq, Repr

/-- `el.get_text(strip=True)`: the text content, trimmed. -/
def getText (el : HtmlElem) : String := pyStrip el.text

/-- `link_el.get("href", "")`. -/
def getHref (el : HtmlElem) : String := el.href.getD ""

/-- Python `url.rstrip('/')`: drop every trailing slash. -/
def rstripSlash (s : String) : String :=
  String.mk ((s.toList.reverse.dropWhile (· == '/')).reverse)

/-- Python `website and website.startswith("/")`: an empty string is
falsy and `startswith` with the one-character pattern `/` just tests the
first character, so the whole guard is "the first character is a
slash". -/
def startsWithSlash (s : String) : Bool :=
  match s.toList with
  | [] => false
  | c :: _ => c == '/'

/-- The body of the `for item in items` loop in `extract_generic`:
`none` when the item is skipped by the
`if not (name_el and date_el and location_el and link_el): continue`
guard, otherwise the constructed `Event`. -/
def extract_item (url source : String) (item : ItemNode) : Option Event :=
  match item.name_el, item.date_el, item.location_el, item.link_el with
  | some name_el, some date_el, some location_el, some link_el =>
    let registration_deadline :=
      match item.deadline_el with
      | some deadline_el => normalize_date (getText deadline_el)
      | none => ""
    let status_text :=
      match item.status_el with
      | some status_el => getText status_el
      | none => ""
    let website0 := getHref link_el
    let website :=
      if startsWithSlash website0 then rstripSlash url ++ website0
      else website0
    some
      { name := getText name_el
        location := getText location_el
        race_date := normalize_date (getText date_el)
        registration_deadline := registration_deadline
        registration_open := guess_open_status status_text
        website := website
        source := source }
  | _, _, _, _ => none

/-- The whole item loop of `extract_generic`, accumulating `events`. -/
def extract_items (url source : String) : List ItemNode → List Event
  | [] => []
  | item :: rest =>
    match extract_item url source item with
    | some e => e :: extract_items url source rest
    | none => extract_items url source rest

/-- Base URL configured in `fetch_irunner`. -/
def irunner_url : String := "https://www.irunner.com.tw/"

/-- Base URL configured in `fetch_running_biji`. -/
def running_biji_url : String := "https://www.running.biji.co/index.php?q=competition"

/-- Base URL configured in `fetch_sponet`. -/
def sponet_url : String := "https://www.sponet.tw/"

/-! ### JSON layer: `write_events` and `load_fallback_events`

The file contents are modelled as a JSON value tree; `json.dump` /
`json.load` (Python standard library) are assumed to round-trip this
tree through text faithfully. -/

inductive JsonVal where
  | str (s : String)
  | bool (b : Bool)
  | arr (elems : List JsonVal)
  | obj (fields : List (String × JsonVal))

/-- Key lookup in a JSON object, `item["key"]` on a parsed dict. -/
def jsonLookup (key : String) : List (String × JsonVal) → Option JsonVal
  | [] => none
  | (k, v) :: rest => if k == key then some v else jsonLookup key rest

/-- The field list of a JSON object (used to state which fields of two
documents agree). -/
def docFields : JsonVal → List (String × JsonVal)
  | .obj fields => fields
  | _ => []

def asStr : Option JsonVal → Option String
  | some (.str s) => some s
  | _ => none

def asBool : Option JsonVal → Option Bool
  | some (.bool b) => some b
  | _ => none

/-- One entry of the `"events"` list built in `write_events`. -/
def event_to_json (e : Event) : JsonVal :=
  .obj [("name", .str e.name),
        ("location", .str e.location),
        ("raceDate", .str e.race_date),
        ("registrationDeadline", .str e.registration_deadline),
        ("registrationOpen", .bool e.registration_open),
        ("website", .str e.website),
        ("source", .str e.source)]

/-- The `payload` document of `write_events`; the
`datetime.now().astimezone().isoformat(timespec="seconds")` timestamp is
an input, since it only depends on the wall clock. -/
def write_events (generatedAt : String) (events : List Event) : JsonVal :=
  .obj [("generatedAt", .str generatedAt),
        ("events", .arr (events.map event_to_json))]

/-- The dict-to-`Event` mapping inside `load_fallback_events`; `none`
models the exception raised on a missing or wrongly-typed field (the
document written by `write_events` always carries the right shapes). -/
def json_to_event : JsonVal → Option Event
  | .obj fields =>
    match asStr (jsonLookup "name" fields), asStr (jsonLookup "location" fields),
        asStr (jsonLookup "raceDate" fields),
        asStr (jsonLookup "registrationDeadline" fields),
        asBool (jsonLookup "registrationOpen" fields),
        asStr (jsonLookup "website" fields), asStr (jsonLookup "source" fields) with
    | some name, some location, some race_date, some registration_deadline,
        some registration_open, some website, some source =>
      some
        { name := name, location := location, race_date := race_date
          registration_deadline := registration_deadline
          registration_open := registration_open
          website := website, source := source }
    | _, _, _, _, _, _, _ => none
  | _ => none

def jsonToEvents : List JsonVal → Option (List Event)
  | [] => some []
  | j :: rest =>
    match json_to_event j, jsonToEvents rest with
    | some e, some es => some (e :: es)
    | _, _ => none

/-- `load_fallback_events` from `scripts/fetch_events.py`, on the parsed
file contents; `none` models the exception on a missing or malformed
file. -/
def load_fallback_events (file : JsonVal) : Option (List Event) :=
  match file with
  | .obj fields =>
    match jsonLookup "events" fields with
    | some (.arr items) => jsonToEvents items
    | _ => none
  | _ => none

/-! ### The orchestrator `main`

The fetch loop: each fetcher either returns events, raises
`requests.RequestException` (caught: warning printed, loop continues) or
raises some other exception (uncaught: the run terminates).  A fetcher is
modelled by its name and its outcome. -/

inductive FetchOutcome where
  | ok (events : List Event)
  | fetchError (msg : String)
  | otherError (msg : String)

/-- The f-string of the `except requests.RequestException` branch. -/
def warnText (name msg : String) : String :=
  "警告: 無法抓取 " ++ name ++ ": " ++ msg

/-- The `for fetcher in (...)` loop of `main`: accumulated events and
printed warnings on normal completion, or the message of the first
uncaught exception. -/
def run_fetchers : List (String × FetchOutcome) → Except String (List Event × List String)
  | [] => .ok ([], [])
  | (name, outcome) :: rest =>
    match outcome with
    | .ok evs =>
      match run_fetchers rest with
      | .ok (es, ws) => .ok (evs ++ es, ws)
      | .error m => .error m
    | .fetchError msg =>
      match run_fetchers rest with
      | .ok (es, ws) => .ok (es, warnText name msg :: ws)
      | .error m => .error m
    | .otherError msg => .error msg

/-- Events contributed by one fetcher outcome. -/
def okEvents : FetchOutcome → List Event
  | .ok evs => evs
  | _ => []

def isOtherError : FetchOutcome → Bool
  | .otherError _ => true
  | _ => false

/-- Specification-side view of the fetch loop: each fetcher contributes
its own events independently (a failed fetch contributes none). -/
def contributedEvents : List (String × FetchOutcome) → List Event
  | [] => []
  | p :: rest => okEvents p.2 ++ contributedEvents rest

/-- Specification-side view of the warnings: one line naming each
fetcher whose fetch failed, in loop order. -/
def fetchWarnings : List (String × FetchOutcome) → List String
  | [] => []
  | (name, .fetchError msg) :: rest => warnText name msg :: fetchWarnings rest
  | _ :: rest => fetchWarnings rest

/-- The tail of `main` after the fetch loop (lines 217-223): fallback
substitution when no events were accumulated, then dedupe, then write;
returns the written document and the count printed by the summary line,
or `none` when `load_fallback_events` raises. -/
def main_tail (generatedAt : String) (fetched : List Event) (fallbackFile : JsonVal) :
    Option (JsonVal × Nat) :=
  match (if fetched.isEmpty then load_fallback_events fallbackFile else some fetched) with
  | none => none
  | some events =>
    let deduped := dedupe_events events
    some (write_events generatedAt deduped, deduped.length)

/-! ### Concrete sample data for witnesses -/

def sampleEvent1 : Event :=
  { name := "台北馬拉松", location := "台北", race_date := "2024-12-15"
    registration_deadline := "2024-10-01", registration_open := true
    website := "https://example.com/taipei", source := "iRunner" }

def sampleEvent2 : Event :=
  { name := "高雄馬拉松", location := "高雄", race_date := "2025-01-12"
    registration_deadline := "", registration_open := false
    website := "https://example.com/kaohsiung", source := "跑步筆記" }

def sampleEvent3 : Event :=
  { name := "太魯閣馬拉松", location := "花蓮", race_date := "2024-11-02"
    registration_deadline := "2024-08-15", registration_open := false
    website := "", source := "SPORTNET" }

def sampleEvent4 : Event :=
  { name := "田中馬拉松", location := "彰化", race_date := "2024-11-10"
    registration_deadline := "", registration_open := true
    website := "/race/tianzhong", source := "iRunner" }

/-- Same dedupe key as `sampleEvent1`, different payload. -/
def sampleEvent1Dup : Event :=
  { sampleEvent1 with registration_open := false, source := "SPORTNET" }

def goodItem : ItemNode :=
  { name_el := some ⟨"台北馬拉松", none⟩, date_el := some ⟨"2024年12月15日", none⟩
    location_el := some ⟨"台北", none⟩, deadline_el := none, status_el := none
    link_el := some ⟨"詳情", some "/race/1"⟩ }

/-- `goodItem` with the `name` sub-selector matching nothing. -/
def badItem : ItemNode :=
  { goodItem with name_el := none }

def bijiItem : ItemNode :=
  { name_el := some ⟨"跑步賽", none⟩, date_el := some ⟨"2024/5/10", none⟩
    location_el := some ⟨"新北", none⟩, deadline_el := none
    status_el := some ⟨"報名中", none⟩
    link_el := some ⟨"連結", some "/activity/123"⟩ }

/-- The event `extract_item` builds from `bijiItem` for the 跑步筆記
source. -/
def bijiEvent : Event :=
  { name := "跑步賽", location := "新北", race_date := "2024-05-10"
    registration_deadline := "", registration_open := true
    website := "https://www.running.biji.co/index.php?q=competition/activity/123"
    source := "跑步筆記" }

/-! ## Lemmas about `dedupe_events` -/

theorem dedupeAux_sublist (seen : List EventKey) (l : List Event) :
    (dedupeAux seen l).Sublist l := by
  induction l generalizing seen with
  | nil => simp [dedupeAux]
  | cons e rest ih =>
    simp only [dedupeAux]
    split
    · exact (ih seen).cons e
    · exact (ih _).cons₂ e

theorem key_not_seen_of_mem_dedupeAux (seen : List EventKey) (l : List Event)
    (x : Event) (h : x ∈ dedupeAux seen l) : eventKey x ∉ seen := by
  induction l generalizing seen with
  | nil => simp [dedupeAux] at h
  | cons e rest ih =>
    simp only [dedupeAux] at h
    split at h
    · exact ih seen h
    · rename_i hnot
      rcases List.mem_cons.mp h with rfl | hm
      · exact hnot
      · intro hk
        exact ih _ hm (List.mem_cons_of_mem _ hk)

theorem dedupeAux_keys_nodup (seen : List EventKey) (l : List Event) :
    ((dedupeAux seen l).map eventKey).Nodup := by
  induction l generalizing seen with
  | nil => simp [dedupeAux]
  | cons e rest ih =>
    simp only [dedupeAux]
    split
    · exact ih seen
    · simp only [List.map_cons, List.nodup_cons]
      refine ⟨?_, ih _⟩
      intro hmem
      rcases List.mem_map.mp hmem with ⟨x, hx, hkey⟩
      exact key_not_seen_of_mem_dedupeAux _ _ _ hx (hkey ▸ List.mem_cons_self _ _)

theorem key_covered_dedupeAux (seen : List EventKey) (l : List Event) (e : Event)
    (h : e ∈ l) :
    eventKey e ∈ seen ∨ eventKey e ∈ (dedupeAux seen l).map eventKey := by
  induction l generalizing seen with
  | nil => cases h
  | cons a rest ih =>
    simp only [dedupeAux]
    rcases List.mem_cons.mp h with rfl | hm
    · split
      · rename_i hseen
        exact .inl hseen
      · right
        simp
    · split
      · exact ih seen hm
      · rcases ih (eventKey a :: seen) hm with hin | hin
        · rcases List.mem_cons.mp hin with heq | hseen
          · right
            simp [heq]
          · exact .inl hseen
        · right
          simp only [List.map_cons, List.mem_cons]
          exact .inr hin

theorem dedupeAux_first_occurrence (seen : List EventKey) (l : List Event)
    (x : Event) (h : x ∈ dedupeAux seen l) :
    l.find? (fun e => decide (eventKey e = eventKey x)) = some x := by
  induction l generalizing seen with
  | nil => simp [dedupeAux] at h
  | cons a rest ih =>
    simp only [dedupeAux] at h
    split at h
    · rename_i hseen
      have hx := key_not_seen_of_mem_dedupeAux seen rest x h
      have hne : ¬ eventKey a = eventKey x := fun hh => hx (hh ▸ hseen)
      rw [List.find?_cons_of_neg _ (by simpa using hne)]
      exact ih seen h
    · rename_i hnot
      rcases List.mem_cons.mp h with rfl | hm
      · rw [List.find?_cons_of_pos _ (by simp)]
      · have hx := key_not_seen_of_mem_dedupeAux _ _ _ hm
        have hne : ¬ eventKey a = eventKey x := fun hh => hx (by simp [← hh])
        rw [List.find?_cons_of_neg _ (by simpa using hne)]
        exact ih _ hm

theorem dedupeAux_eq_self (seen : List EventKey) (l : List Event)
    (h1 : ∀ e ∈ l, eventKey e ∉ seen) (h2 : (l.map eventKey).Nodup) :
    dedupeAux seen l = l := by
  induction l generalizing seen with
  | nil => rfl
  | cons a rest ih =>
    simp only [List.map_cons, List.nodup_cons] at h2
    simp only [dedupeAux]
    rw [if_neg (h1 a (List.mem_cons_self a rest))]
    congr 1
    refine ih _ ?_ h2.2
    intro e he
    simp only [List.mem_cons, not_or]
    refine ⟨fun hkey => h2.1 ?_, h1 e (List.mem_cons_of_mem _ he)⟩
    exact hkey ▸ List.mem_map_of_mem eventKey he

/-! ## Claims -/

/-- C1: `dedupe_events` returns a subsequence of its input in which no
two elements share the identity key `(name, raceDate, location)`; every
input key is represented in the output, and every output element is the
first element of the input carrying its key, so the output is exactly
the first occurrence of each key in input order. -/
theorem dedupe_events_spec (l : List Event) :
    (dedupe_events l).Sublist l ∧
    ((dedupe_events l).map eventKey).Nodup ∧
    (∀ e ∈ l, eventKey e ∈ (dedupe_events l).map eventKey) ∧
    (∀ x ∈ dedupe_events l,
      l.find? (fun e => decide (eventKey e = eventKey x)) = some x) := by
  refine ⟨dedupeAux_sublist [] l, dedupeAux_keys_nodup [] l, ?_, ?_⟩
  · intro e he
    rcases key_covered_dedupeAux [] l e he with h | h
    · cases h
    · exact h
  · intro x hx
    exact dedupeAux_first_occurrence [] l x hx

/-- Witness for C1 on a concrete three-element input containing a
duplicated key. -/
theorem dedupe_events_spec_witness :
    (dedupe_events [sampleEvent1, sampleEvent2, sampleEvent1Dup]).Sublist
      [sampleEvent1, sampleEvent2, sampleEvent1Dup] ∧
    ((dedupe_events [sampleEvent1, sampleEvent2, sampleEvent1Dup]).map eventKey).Nodup ∧
    eventKey sampleEvent1Dup ∈
      (dedupe_events [sampleEvent1, sampleEvent2, sampleEvent1Dup]).map eventKey ∧
    [sampleEvent1, sampleEvent2, sampleEvent1Dup].find?
        (fun e => decide (eventKey e = eventKey sampleEvent1)) = some sampleEvent1 :=
  have h := dedupe_events_spec [sampleEvent1, sampleEvent2, sampleEvent1Dup]
  ⟨h.1, h.2.1, h.2.2.1 sampleEvent1Dup (by decide), h.2.2.2 sampleEvent1 (by decide)⟩

/-! ## Lemmas about the JSON layer -/

theorem json_to_event_event_to_json (e : Event) :
    json_to_event (event_to_json e) = some e := by
  cases e
  rfl

theorem jsonToEvents_map (l : List Event) :
    jsonToEvents (l.map event_to_json) = some l := by
  induction l with
  | nil => rfl
  | cons e rest ih => simp [jsonToEvents, json_to_event_event_to_json, ih]

theorem load_write (ts : String) (events : List Event) :
    load_fallback_events (write_events ts events) = some events := by
  show jsonToEvents (events.map event_to_json) = some events
  exact jsonToEvents_map events

/-- C4: writing a sequence of events and loading the written document
back yields the original sequence field-for-field; the document's
`generatedAt` field is the timestamp of that write, and the `events`
part of the document does not depend on the timestamp. -/
theorem write_load_roundtrip (ts ts2 : String) (events : List Event) :
    load_fallback_events (write_events ts events) = some events ∧
    jsonLookup "generatedAt" (docFields (write_events ts events)) =
      some (.str ts) ∧
    jsonLookup "events" (docFields (write_events ts events)) =
      jsonLookup "events" (docFields (write_events ts2 events)) :=
  ⟨load_write ts events, rfl, rfl⟩

/-- C2: when the accumulated list is empty the fallback file's events
replace it (an unconditional substitution, never a merge) and flow
through dedupe and write, so a fallback with distinct keys is written
back verbatim with the fresh timestamp; when the accumulated list is
nonempty the fallback file is never consulted. -/
theorem main_tail_fallback (generatedAt : String) (fallbackFile : JsonVal)
    (fetched fbEvents : List Event) :
    (load_fallback_events fallbackFile = some fbEvents →
      main_tail generatedAt [] fallbackFile =
        some (write_events generatedAt (dedupe_events fbEvents),
              (dedupe_events fbEvents).length)) ∧
    (load_fallback_events fallbackFile = some fbEvents →
      (fbEvents.map eventKey).Nodup →
      main_tail generatedAt [] fallbackFile =
        some (write_events generatedAt fbEvents, fbEvents.length)) ∧
    (fetched ≠ [] →
      main_tail generatedAt fetched fallbackFile =
        some (write_events generatedAt (dedupe_events fetched),
              (dedupe_events fetched).length)) := by
  refine ⟨?_, ?_, ?_⟩
  · intro hload
    simp [main_tail, hload]
  · intro hload hnodup
    have hid : dedupe_events fbEvents = fbEvents :=
      dedupeAux_eq_self [] fbEvents (by simp) hnodup
    simp [main_tail, hload, hid]
  · intro hne
    cases fetched with
    | nil => exact absurd rfl hne
    | cons a rest => simp [main_tail]

/-- Witness for C2: all fetches failed (empty accumulated list) and the
fallback file holds four key-distinct events; the run writes exactly
those four events with the new timestamp and reports 4. -/
theorem main_tail_fallback_witness :
    main_tail "2025-06-01T12:00:00+08:00" []
        (write_events "2024-01-01T00:00:00+08:00"
          [sampleEvent1, sampleEvent2, sampleEvent3, sampleEvent4]) =
      some (write_events "2025-06-01T12:00:00+08:00"
              [sampleEvent1, sampleEvent2, sampleEvent3, sampleEvent4], 4) := by
  have h := (main_tail_fallback "2025-06-01T12:00:00+08:00"
      (write_events "2024-01-01T00:00:00+08:00"
        [sampleEvent1, sampleEvent2, sampleEvent3, sampleEvent4])
      [] [sampleEvent1, sampleEvent2, sampleEvent3, sampleEvent4]).2.1
    (load_write _ _) (by decide)
  simpa using h

/-! ## Lemmas about the fetch loop -/

theorem run_fetchers_ok (outs : List (String × FetchOutcome))
    (h : ∀ p ∈ outs, isOtherError p.2 = false) :
    run_fetchers outs = .ok (contributedEvents outs, fetchWarnings outs) := by
  induction outs with
  | nil => rfl
  | cons p rest ih =>
    obtain ⟨name, outcome⟩ := p
    have hrest := ih fun q hq => h q (List.mem_cons_of_mem _ hq)
    cases outcome with
    | ok evs => simp [run_fetchers, hrest, contributedEvents, fetchWarnings, okEvents]
    | fetchError msg =>
      simp [run_fetchers, hrest, contributedEvents, fetchWarnings, okEvents]
    | otherError msg =>
      have := h (name, .otherError msg) (List.mem_cons_self _ _)
      simp [isOtherError] at this

/-- C3: a `requests.RequestException` from one fetcher is caught
individually — the loop completes, the failing fetcher contributes zero
events and one warning line naming it is printed — while any other
exception propagates out of the loop, terminating the run with the first
such exception. -/
theorem run_fetchers_spec :
    (∀ outs : List (String × FetchOutcome),
      (∀ p ∈ outs, isOtherError p.2 = false) →
      run_fetchers outs = .ok (contributedEvents outs, fetchWarnings outs)) ∧
    (∀ pre : List (String × FetchOutcome), ∀ name msg : String,
      ∀ post : List (String × FetchOutcome),
      (∀ p ∈ pre, isOtherError p.2 = false) →
      run_fetchers (pre ++ (name, FetchOutcome.otherError msg) :: post) =
        .error msg) := by
  constructor
  · exact run_fetchers_ok
  · intro pre name msg post h
    induction pre with
    | nil => rfl
    | cons p rest ih =>
      obtain ⟨pname, outcome⟩ := p
      have hrest := ih fun q hq => h q (List.mem_cons_of_mem _ hq)
      cases outcome with
      | ok evs => simp [run_fetchers, hrest]
      | fetchError m => simp [run_fetchers, hrest]
      | otherError m =>
        have := h (pname, .otherError m) (List.mem_cons_self _ _)
        simp [isOtherError] at this

/-- Witness for C3: a middle fetcher fails with a network error — run
completes with the other fetchers' events and a warning naming it; a
middle fetcher raising a non-network error terminates the run. -/
theorem run_fetchers_spec_witness :
    run_fetchers
        [("fetch_irunner", .ok [sampleEvent1]),
         ("fetch_running_biji", .fetchError "timeout"),
         ("fetch_sponet", .ok [sampleEvent2])] =
      .ok ([sampleEvent1, sampleEvent2],
           [warnText "fetch_running_biji" "timeout"]) ∧
    run_fetchers
        [("fetch_irunner", .ok [sampleEvent1]),
         ("fetch_running_biji", .otherError "parse bug")] =
      .error "parse bug" := by
  constructor
  · have h := run_fetchers_spec.1
      [("fetch_irunner", .ok [sampleEvent1]),
       ("fetch_running_biji", .fetchError "timeout"),
       ("fetch_sponet", .ok [sampleEvent2])] (by decide)
    simpa [contributedEvents, fetchWarnings, okEvents] using h
  · exact run_fetchers_spec.2 [("fetch_irunner", .ok [sampleEvent1])]
      "fetch_running_biji" "parse bug" [] (by decide)

/-- C5: `normalize_date` satisfies the spec's three examples, and for
every input it is total, returning the cleaned-but-unparsed input
verbatim when neither a strict pattern nor the regex extraction
matches. -/
theorem normalize_date_spec :
    normalize_date "2024年5月10日" = "2024-05-10" ∧
    normalize_date "2024/5/10" = "2024-05-10" ∧
    normalize_date "不明" = "不明" ∧
    ∀ value : String,
      tryPatterns (cleanValue value).toList = none →
      regexSearchDate (cleanValue value).toList = none →
      normalize_date value = cleanValue value := by
  refine ⟨by decide, by decide, by decide, ?_⟩
  intro value h1 h2
  simp only [String.toList] at h1 h2
  simp [normalize_date, h1, h2]

/-- Witness for C5: on `不明` both the strict patterns and the regex
extraction fail and the cleaned input comes back verbatim. -/
theorem normalize_date_spec_witness :
    tryPatterns (cleanValue "不明").toList = none ∧
    regexSearchDate (cleanValue "不明").toList = none ∧
    normalize_date "不明" = cleanValue "不明" := by
  refine ⟨by decide, by decide, ?_⟩
  exact normalize_date_spec.2.2.2 "不明" (by decide) (by decide)

/-- C6: an item yields an `Event` iff all four of the name, race_date,
location and link sub-selectors matched; a missing status or deadline
sub-element only yields `registrationOpen = false` respectively
`registrationDeadline = ""`; and a skipped item leaves its siblings'
extraction unchanged. -/
theorem extract_item_skip_spec (url source : String) (item : ItemNode) :
    ((extract_item url source item).isSome = true ↔
      (item.name_el.isSome = true ∧ item.date_el.isSome = true ∧
       item.location_el.isSome = true ∧ item.link_el.isSome = true)) ∧
    (item.status_el = none → ∀ e, extract_item url source item = some e →
      e.registration_open = false) ∧
    (item.deadline_el = none → ∀ e, extract_item url source item = some e →
      e.registration_deadline = "") ∧
    (extract_item url source item = none → ∀ pre post : List ItemNode,
      extract_items url source (pre ++ item :: post) =
        extract_items url source (pre ++ post)) := by
  obtain ⟨n, d, loc, dl, st, lk⟩ := item
  refine ⟨?_, ?_, ?_, ?_⟩
  · cases n <;> cases d <;> cases loc <;> cases lk <;> simp [extract_item]
  · intro hst e he
    cases st with
    | some s => simp at hst
    | none =>
      have hfalse : guess_open_status "" = false := by decide
      cases n <;> cases d <;> cases loc <;> cases lk <;> simp [extract_item] at he
      subst he
      simp [hfalse]
  · intro hdl e he
    cases dl with
    | some s => simp at hdl
    | none =>
      cases n <;> cases d <;> cases loc <;> cases lk <;> simp [extract_item] at he
      subst he
      simp
  · intro hnone pre post
    induction pre with
    | nil => simp [extract_items, hnone]
    | cons a pre ih =>
      cases hx : extract_item url source a <;> simp [extract_items, hx, ih]

/-- Witness for C6: a sibling list where the middle item lacks a `name`
sub-element — that item is silently absent while the siblings are
extracted unchanged. -/
theorem extract_item_skip_spec_witness :
    extract_items irunner_url "iRunner" ([goodItem] ++ badItem :: [goodItem]) =
      extract_items irunner_url "iRunner" ([goodItem] ++ [goodItem]) ∧
    (extract_item irunner_url "iRunner" badItem).isSome = false := by
  constructor
  · exact (extract_item_skip_spec irunner_url "iRunner" badItem).2.2.2 (by decide)
      [goodItem] [goodItem]
  · decide

/-- C7: `guess_open_status` holds on `報名中`, fails on `已截止` and on
the empty string, and in general holds iff the trimmed text contains one
of the fixed keywords. -/
theorem guess_open_status_spec :
    guess_open_status "報名中" = true ∧
    guess_open_status "已截止" = false ∧
    guess_open_status "" = false ∧
    ∀ text : String,
      guess_open_status text = true ↔
        ∃ k ∈ openKeywords, containsSub k.toList (stripChars text.toList) = true := by
  refine ⟨by decide, by decide, by decide, ?_⟩
  intro text
  simp [guess_open_status, List.any_eq_true]

/-- Witness for C7: `報名中` itself contains a keyword. -/
theorem guess_open_status_spec_witness :
    guess_open_status "報名中" = true ∧
    ∃ k ∈ openKeywords,
      containsSub k.toList (stripChars ("報名中" : String).toList) = true := by
  refine ⟨by decide, ?_⟩
  exact (guess_open_status_spec.2.2.2 "報名中").mp (by decide)

/-- C8: a non-empty href starting with `/` is resolved by concatenating
the source's base URL with trailing slashes stripped; any other href
(including the empty default when the attribute is absent) is stored
unchanged. -/
theorem website_resolution_spec (url source : String) (item : ItemNode)
    (link : HtmlElem) (e : Event)
    (hlink : item.link_el = some link)
    (he : extract_item url source item = some e) :
    (startsWithSlash (getHref link) = true →
      e.website = rstripSlash url ++ getHref link) ∧
    (startsWithSlash (getHref link) = false → e.website = getHref link) ∧
    (link.href = none → e.website = "") := by
  obtain ⟨n, d, loc, dl, st, lk⟩ := item
  simp only at hlink
  subst hlink
  cases n <;> cases d <;> cases loc <;> simp [extract_item] at he
  subst he
  have hempty : startsWithSlash "" = false := by decide
  refine ⟨fun hs => ?_, fun hs => ?_, fun hhref => ?_⟩
  · simp [hs]
  · simp [hs]
  · simp [getHref, hhref, hempty]

/-- Witness for C8: the 跑步筆記 link `/activity/123` resolves against
that source's configured base URL. -/
theorem website_resolution_spec_witness :
    bijiEvent.website =
      rstripSlash running_biji_url ++ getHref ⟨"連結", some "/activity/123"⟩ ∧
    bijiEvent.website =
      "https://www.running.biji.co/index.php?q=competition/activity/123" := by
  constructor
  · exact (website_resolution_spec running_biji_url "跑步筆記" bijiItem
      ⟨"連結", some "/activity/123"⟩ bijiEvent (by decide) (by decide)).1 (by decide)
  · decide

/-- C9: the keyword set is exactly the four phrases 報名中, 開放,
可報名, 立即報名 and matching is plain substring containment on the
trimmed text, so a longer negating phrase containing a keyword is still
classified as open: `guess_open_status "不開放" = true`. -/
theorem open_keywords_substring_spec :
    guess_open_status "不開放" = true ∧
    openKeywords = ["報名中", "開放", "可報名", "立即報名"] ∧
    ∀ text : String,
      guess_open_status text =
        (["報名中", "開放", "可報名", "立即報名"].any fun k =>
          containsSub k.toList (stripChars text.toList)) :=
  ⟨by decide, rfl, fun _ => rfl⟩

/-- C10: the regex fallback zero-pads but performs no calendar-range
validation: on `2024.13.45` the strict patterns all fail, the regex
extraction accepts month 13 and day 45, and the result is the
canonically-shaped non-date `2024-13-45`. -/
theorem normalize_date_no_range_check :
    normalize_date "2024.13.45" = "2024-13-45" ∧
    tryPatterns (cleanValue "2024.13.45").toList = none ∧
    regexSearchDate (cleanValue "2024.13.45").toList = some ("2024", 13, 45) :=
  ⟨by decide, by decide, by decide⟩

end Marathon
